import Mathlib

/-!
Verification development for the logbolt logging library
(`src/logbolt/core.py` and `src/logbolt/lite.py`).

The Python source is shallowly embedded: pure functions become Lean
functions, stateful code becomes explicit state passing, byte strings
become `List Nat`, machine integers become `Nat`/`Int`, and fallible
Python code (raised exceptions) returns `Option`/`Except`.
-/

namespace Logbolt

/-! ## Log levels (`core.py` `LogLevel`, `lite.py` level constants)

`LogLevel` is an `IntEnum` with DEBUG=10, INFO=20, WARNING=30, ERROR=40,
CRITICAL=50.  Levels are modelled as plain `Nat` weights, matching how the
code compares them (`record['level'] >= self.level` etc.). -/

def DEBUG : Nat := 10
def INFO : Nat := 20
def WARNING : Nat := 30
def ERROR : Nat := 40
def CRITICAL : Nat := 50

/-- `LogLevel(n).name` for the five defined weights.  The Python enum raises
`ValueError` on any other weight; theorems only ever use defined weights, so
a junk default string stands in for the unreachable error case. -/
def levelName (n : Nat) : String :=
  if n = 10 then "DEBUG"
  else if n = 20 then "INFO"
  else if n = 30 then "WARNING"
  else if n = 40 then "ERROR"
  else if n = 50 then "CRITICAL"
  else "INVALID"

/-! ## Log records (`core.py` `LogBolt._build_record`)

A record is a Python dict.  `_build_record` always populates `name`,
`level`, `message`, `timestamp`, `thread_id`, `process_id`, then merges
context and keyword fields.  The dispatcher additionally hands handlers
bare `{'message': msg}` dicts.  The structure below covers both shapes:
`message?` is `some m` exactly when the dict maps `'message'` to a string
(the condition `'message' in record and isinstance(record['message'], str)`
tested by the emit methods); fields a bare dict lacks are defaulted and are
never read on the code paths that receive bare dicts.  `extra` holds the
merged context / keyword fields. -/

structure Record where
  name : String := ""
  level : Nat := 0
  message? : Option String := none
  timestamp : Nat := 0
  thread_id : Nat := 0
  process_id : Nat := 0
  extra : List (String × String) := []

/-! ## Formatters (`core.py` `LogFormatter`, `CompiledFormatter`)

A parsed `{field}` template is a token list (literal chunk or field name);
this is exactly what `string.Formatter().parse` produces and what
`CompiledFormatter._compile` iterates over.  The wall-clock rendering of
`asctime` (`datetime..strftime(datefmt)`) is embedded as the function
`dateRender : Nat → String` carried by the formatter: it is the semantic
content of the `datefmt` field. -/

inductive Tok where
  | lit (s : String)
  | field (n : String)

/-- `CompiledFormatter._field_getters`: the fixed derived-field table. -/
def fieldGetter (dateRender : Nat → String) (r : Record) (n : String) : Option String :=
  if n = "asctime" then some (dateRender r.timestamp)
  else if n = "levelname" then some (levelName r.level)
  else if n = "message" then some (r.message?.getD "")
  else if n = "name" then some r.name
  else if n = "thread_id" then some (toString r.thread_id)
  else if n = "process_id" then some (toString r.process_id)
  else none

/-- `CompiledFormatter.format`: every parsed field resolves through the
getter table, else through `str(record.get(field, ''))` — missing fields
degrade to `""`, so this formatter never raises. -/
def compiledRender (dateRender : Nat → String) (toks : List Tok) (r : Record) : String :=
  toks.foldl
    (fun acc t =>
      match t with
      | .lit s => acc ++ s
      | .field n =>
        match fieldGetter dateRender r n with
        | some v => acc ++ v
        | none => acc ++ ((r.extra.lookup n).getD ""))
    ""

/-- Dict lookup as seen by `LogFormatter.format`: the record dict augmented
with `asctime` and `levelname`; a field absent from the dict makes
`str.format` raise `KeyError`. -/
def dictLookup (dateRender : Nat → String) (r : Record) (n : String) : Option String :=
  if n = "asctime" then some (dateRender r.timestamp)
  else if n = "levelname" then some (levelName r.level)
  else if n = "message" then r.message?
  else if n = "name" then some r.name
  else if n = "level" then some (toString r.level)
  else if n = "thread_id" then some (toString r.thread_id)
  else if n = "process_id" then some (toString r.process_id)
  else r.extra.lookup n

/-- `LogFormatter.format`: renders the template, raising (`.error`) on the
first field missing from the record dict. -/
def basicRender (dateRender : Nat → String) (toks : List Tok) (r : Record) :
    Except Unit String :=
  toks.foldlM
    (fun acc t =>
      match t with
      | .lit s => Except.ok (acc ++ s)
      | .field n =>
        match dictLookup dateRender r n with
        | some v => Except.ok (acc ++ v)
        | none => Except.error ())
    ""

/-- A handler's formatter: either the compiled strategy (total) or the basic
interpretive one (may raise `KeyError` on a missing field). -/
inductive Formatter where
  | compiled (toks : List Tok) (dateRender : Nat → String)
  | basic (toks : List Tok) (dateRender : Nat → String)

def Formatter.format : Formatter → Record → Except Unit String
  | .compiled toks dr, r => Except.ok (compiledRender dr toks r)
  | .basic toks dr, r => basicRender dr toks r

/-! ## Handlers (`core.py` `LogHandler` and subclasses)

For the dispatcher-level claims a handler is its level threshold plus its
formatter; `id` is an identity tag used to track which sink an emission
went to (a Python object identity). -/

structure Handler where
  id : Nat := 0
  level : Nat := INFO
  formatter : Formatter

/-- `ConsoleHandler.emit`: if the record holds a string `message`, that
string plus `'\n'` is written verbatim; otherwise the handler's formatter
output plus `'\n'` is written.  A formatter exception is caught by the
surrounding `try` (a diagnostic is printed to stderr) and nothing is
written to the stream; the result is the line written, if any. -/
def ConsoleHandler.emitLine (h : Handler) (r : Record) : Option String :=
  match r.message? with
  | some m => some (m ++ "\n")
  | none =>
    match h.formatter.format r with
    | .ok s => some (s ++ "\n")
    | .error _ => none

/-! ## Filesystem model for `FileHandler`

Files are an association list from path to content, with unique keys
maintained by the operations below. -/

abbrev FS := List (String × String)

def FS.lookup : FS → String → Option String
  | [], _ => none
  | (k, v) :: rest, n => if k = n then some v else FS.lookup rest n

def FS.pathExists (fs : FS) (n : String) : Bool :=
  (FS.lookup fs n).isSome

def FS.remove (fs : FS) (n : String) : FS :=
  fs.filter (fun p => p.1 != n)

def FS.set (fs : FS) (n c : String) : FS :=
  (n, c) :: FS.remove fs n

/-- `os.rename`; only called by the source after an existence check. -/
def FS.rename (fs : FS) (old new : String) : FS :=
  match FS.lookup fs old with
  | some c => FS.set (FS.remove fs old) new c
  | none => fs

/-- `open(name, 'a')`: creates the file empty when missing, otherwise keeps
its contents (append mode never truncates). -/
def FS.openAppend (fs : FS) (n : String) : FS :=
  match FS.lookup fs n with
  | some _ => fs
  | none => (n, "") :: fs

/-- `os.path.dirname`: everything before the last `'/'` (empty when the
path has no directory component). -/
def dirname (s : String) : String :=
  ⟨(((s.toList.reverse.dropWhile (fun c => c ≠ '/')).drop 1).reverse)⟩

/-! ## FileHandler (`core.py` lines 186-278) -/

structure FileHandler where
  filename : String
  level : Nat
  max_bytes : Nat
  backup_count : Nat
  formatter : Formatter
  /-- `self._file`: `some ()` when an open handle is held, `none` when
  `_file is None` (or holds an already-closed handle, which behaves
  identically on every path the claims exercise: writes are skipped /
  fail and are caught). -/
  file : Option Unit

/-- `FileHandler._open_file`: `os.makedirs(os.path.dirname(filename))`
raises `FileNotFoundError` (an `IOError`) when the dirname is empty; the
handler catches it, prints to stderr, and leaves `self._file` unchanged.
Otherwise the directory is created and the file opened in append mode. -/
def FileHandler.openFileM (h : FileHandler) (fs : FS) : FileHandler × FS :=
  if dirname h.filename = "" then (h, fs)
  else ({ h with file := some () }, FS.openAppend fs h.filename)

/-- `FileHandler.__init__`: stores the configuration, `self._file = None`,
then `self._open_file()`. -/
def FileHandler.construct (filename : String) (level : Nat) (max_bytes backup_count : Nat)
    (fmt : Formatter) (fs : FS) : FileHandler × FS :=
  FileHandler.openFileM
    { filename := filename, level := level, max_bytes := max_bytes,
      backup_count := backup_count, formatter := fmt, file := none } fs

/-- One iteration of the backup-renaming loop in `_do_rollover`:
`sfn = f"{filename}.{i}"`, `dfn = f"{filename}.{i+1}"`. -/
def rolloverStep (filename : String) (fs : FS) (i : Nat) : FS :=
  let sfn := filename ++ "." ++ toString i
  let dfn := filename ++ "." ++ toString (i + 1)
  if FS.pathExists fs sfn then
    let fs1 := if FS.pathExists fs dfn then FS.remove fs dfn else fs
    FS.rename fs1 sfn dfn
  else fs

/-- `FileHandler._do_rollover`: close the current file; when
`backup_count > 0` run the rename cascade (`range(backup_count-1, 0, -1)`
is `[backup_count-1, …, 1]`) and move the base file to `.1`; then
`_open_file()` reopens the base file in append mode. -/
def FileHandler.doRollover (h : FileHandler) (fs : FS) : FileHandler × FS :=
  let fs1 :=
    if 0 < h.backup_count then
      let fs' := (((List.range (h.backup_count - 1)).map (· + 1)).reverse).foldl
        (rolloverStep h.filename) fs
      let dfn := h.filename ++ "." ++ "1"
      let fs'' := if FS.pathExists fs' dfn then FS.remove fs' dfn else fs'
      if FS.pathExists fs'' h.filename then FS.rename fs'' h.filename dfn else fs''
    else fs
  FileHandler.openFileM { h with file := none } fs1

/-- `FileHandler._should_rollover`: `False` when `_file is None`, otherwise
compares the current on-disk size against `max_bytes`. -/
def FileHandler.shouldRollover (h : FileHandler) (fs : FS) : Bool :=
  match h.file with
  | none => false
  | some _ => h.max_bytes ≤ ((FS.lookup fs h.filename).getD "").length

/-- Append a line to the handler's file (the body of the locked write in
`emit`); a write with `_file is None` is skipped. -/
def FileHandler.writeIfOpen (h : FileHandler) (fs : FS) (data : String) : FS :=
  match h.file with
  | none => fs
  | some _ => FS.set fs h.filename (((FS.lookup fs h.filename).getD "") ++ data)

/-- `FileHandler.emit`: rollover check, then either the verbatim
pre-formatted `message` path or format-then-write; a formatter exception is
caught and nothing is written. -/
def FileHandler.emit (h : FileHandler) (fs : FS) (r : Record) : FileHandler × FS :=
  let hfs := if h.shouldRollover fs then h.doRollover fs else (h, fs)
  match r.message? with
  | some m => (hfs.1, hfs.1.writeIfOpen hfs.2 (m ++ "\n"))
  | none =>
    match hfs.1.formatter.format r with
    | .ok s => (hfs.1, hfs.1.writeIfOpen hfs.2 (s ++ "\n"))
    | .error _ => (hfs.1, hfs.2)

/-- `FileHandler._emit_batch`: join the pre-formatted lines, rollover
check, single write. -/
def FileHandler.emitBatch (h : FileHandler) (fs : FS) (msgs : List String) :
    FileHandler × FS :=
  let data := String.intercalate "\n" msgs ++ "\n"
  let hfs := if h.shouldRollover fs then h.doRollover fs else (h, fs)
  (hfs.1, hfs.1.writeIfOpen hfs.2 data)

/-- `FileHandler.close`: close the handle and set `_file = None`. -/
def FileHandler.close (h : FileHandler) (fs : FS) : FileHandler × FS :=
  ({ h with file := none }, fs)

/-! ## AsyncDispatcher (`core.py` lines 313-386)

The process-wide singleton is modelled as explicit global state
(`DispatcherGlobal.instance?` embeds the class attribute `_instance`).
Thread state is made explicit: `stopSet` is `_stop_event.is_set()` and
`workerRunning` records whether the consumer thread is alive (started by
`__init__`, terminated by the join in `shutdown` once the stop event makes
`_process_logs` leave its loop). -/

structure Dispatcher where
  queue : List (Record × List Handler)
  stopSet : Bool
  workerRunning : Bool
  /-- `self._initialized` (instance attribute shadowing the class default
  `False` once `__init__` completes). -/
  initialized : Bool

structure DispatcherGlobal where
  instance? : Option Dispatcher

/-- The state produced by a full `__new__` + `__init__` run: empty queue,
cleared stop event, freshly started daemon consumer. -/
def freshDispatcher : Dispatcher :=
  { queue := [], stopSet := false, workerRunning := true, initialized := true }

/-- `AsyncDispatcher()`: `__new__` returns the existing `_instance` when
there is one, else allocates; `__init__` returns immediately when
`_initialized` is already set, else initializes the instance. -/
def AsyncDispatcher.create (g : DispatcherGlobal) : DispatcherGlobal × Dispatcher :=
  match g.instance? with
  | some d =>
    if d.initialized then (g, d)
    else ({ instance? := some freshDispatcher }, freshDispatcher)
  | none => ({ instance? := some freshDispatcher }, freshDispatcher)

/-- `queue.Queue(maxsize=10000)`. -/
def QUEUE_CAP : Nat := 10000

/-- `Queue.put_nowait`: `none` models the raised `queue.Full`. -/
def putNowait {α : Type} (cap : Nat) (q : List α) (x : α) : Option (List α) :=
  if q.length < cap then some (q ++ [x]) else none

/-- `AsyncDispatcher.dispatch`: attach the handlers to the record
(`record['_handlers'] = handlers` — modelled by pairing), attempt a
non-blocking enqueue, and swallow `queue.Full` (`except queue.Full: pass`).
The function is total: no exception ever reaches the caller. -/
def Dispatcher.dispatch (d : Dispatcher) (r : Record) (hs : List Handler) : Dispatcher :=
  match putNowait QUEUE_CAP d.queue (r, hs) with
  | some q => { d with queue := q }
  | none => d

/-- `AsyncDispatcher.shutdown`: set the stop event and join the consumer
(the loop in `_process_logs` exits once `_stop_event.is_set()`). -/
def Dispatcher.shutdown (d : Dispatcher) : Dispatcher :=
  { d with stopSet := true, workerRunning := false }

/-- Shutdown through the singleton (`AsyncDispatcher().shutdown()` as
called by `LogBolt.close`). -/
def shutdownG (g : DispatcherGlobal) : DispatcherGlobal :=
  match g.instance? with
  | some d => { instance? := some d.shutdown }
  | none =>
    let gd := AsyncDispatcher.create g
    { instance? := some gd.2.shutdown }

/-- The dispatch step of `LogBolt._log`:
`dispatcher = AsyncDispatcher(); dispatcher.dispatch(record, self.handlers)`.
The singleton reference is re-read (and lazily created) on every call. -/
def logDispatch (g : DispatcherGlobal) (r : Record) (hs : List Handler) :
    DispatcherGlobal :=
  let gd := AsyncDispatcher.create g
  { instance? := some (gd.2.dispatch r hs) }

/-! ## Batch flushing (`core.py` `AsyncDispatcher._flush_batch`)

For each record the loop pops the attached handlers, skips a handler when
`handler.level > record['level']`, and otherwise formats and emits inside a
`try` whose `except` prints a diagnostic and `continue`s.  The result is
the ordered list of attempts: `(handler id, .ok msg)` when the pair was
formatted and emitted (via `handler.emit({'message': msg})`), and
`(handler id, .error ())` when formatting raised and only the diagnostic
was printed. -/

def flushRecord (r : Record) (hs : List Handler) :
    List (Nat × Except Unit String) :=
  hs.foldl
    (fun acc h =>
      if r.level < h.level then acc
      else acc ++ [(h.id, h.formatter.format r)])
    []

def flushBatch (batch : List (Record × List Handler)) :
    List (Nat × Except Unit String) :=
  batch.foldl (fun acc rh => acc ++ flushRecord rh.1 rh.2) []

/-! ## Filter chain (`core.py` `LogBolt._rebuild_filter_chain`)

A filter is its `filter(record) -> bool` predicate.  The chain starts from
`lambda r: r` and wraps it once per filter, iterating over the filter list
in reverse, so the first-registered filter is tested first; `None` (here
`none`) is the reject result tested by `_log`. -/

def rebuildFilterChain (fs : List (Record → Bool)) : Record → Option Record :=
  fs.reverse.foldl
    (fun prev f => fun r => if f r then prev r else none)
    (fun r => some r)

/-! ## SamplingFilter (`core.py` lines 102-119)

`__init__` stores `rate` without any validation.  Without the optional
`atomics` dependency (the fallback branch embedded here) `filter`
increments the counter and returns `counter % rate == 0`.  Python's `%` is
floor-mod (`Int.fmod`) and raises `ZeroDivisionError` when `rate == 0` —
modelled as `.error`; the increment happens before the raise. -/

structure SamplingFilter where
  rate : Int
  counter : Int

def SamplingFilter.construct (rate : Int) : SamplingFilter :=
  { rate := rate, counter := 0 }

def SamplingFilter.filterStep (s : SamplingFilter) : SamplingFilter × Except Unit Bool :=
  let c := s.counter + 1
  ({ s with counter := c },
   if s.rate = 0 then Except.error ()
   else Except.ok (decide (Int.fmod c s.rate = 0)))

/-! ## lite.py: byte buffers

Byte strings are `List Nat`.  `sliceAssign buf i j data` is Python's
`buf[i:j] = data` on a `bytearray`: the elements from `i` up to
`min j (len buf)` are replaced by `data`, which changes the buffer's
length whenever `data` is not exactly that long (slice assignment can grow
a bytearray). -/

def sliceAssign (buf : List Nat) (i j : Nat) (data : List Nat) : List Nat :=
  buf.take i ++ data ++ buf.drop (max i (min j buf.length))

/-- Python `t[i:j]` on bytes (for `0 ≤ i`, with the usual clamping). -/
def listSlice (t : List Nat) (i j : Nat) : List Nat :=
  (t.drop i).take (j - i)

/-! ## UltraFastLogger (`lite.py` lines 41-163)

State: the level gate, the fixed 1 MiB `bytearray` buffer, the cursor
`_buffer_pos`, and the output file contents (`none` when no file is open;
lite's `_open_file` has no error handling).  The wall-clock byte string
produced by `_get_time_bytes` is passed in explicitly (`timeBytes`). -/

structure UltraFastLogger where
  level : Nat
  buffer : List Nat
  bufferPos : Nat
  file? : Option (List Nat)

/-- `bytearray(1048576)` — the preallocated buffer of `__init__`. -/
def ULTRA_BUFFER : List Nat := List.replicate 1048576 0

/-- `lite.py` `LEVEL_NAMES` dict; `none` models the `KeyError` raised by
`LEVEL_NAMES[level]` for an undefined weight. -/
def LEVEL_NAMES (level : Nat) : Option (List Nat) :=
  if level = 10 then some [68, 69, 66, 85, 71]
  else if level = 20 then some [73, 78, 70, 79]
  else if level = 30 then some [87, 65, 82, 78, 73, 78, 71]
  else if level = 40 then some [69, 82, 82, 79, 82]
  else if level = 50 then some [67, 82, 73, 84, 73, 67, 65, 76]
  else none

/-- `_format_message` body: `time + b' [' + name + b'] ' + msg + b'\n'`. -/
def formatMessage (timeBytes levelNm msg : List Nat) : List Nat :=
  timeBytes ++ [32, 91] ++ levelNm ++ [93, 32] ++ msg ++ [10]

/-- `UltraFastLogger.flush`: when a file is open and the cursor is
positive, write `buffer[:pos]` to the file and reset the cursor; otherwise
do nothing (with no file the cursor is NOT reset). -/
def UltraFastLogger.flush (l : UltraFastLogger) : UltraFastLogger :=
  match l.file? with
  | some f =>
    if 0 < l.bufferPos then
      { l with file? := some (f ++ l.buffer.take l.bufferPos), bufferPos := 0 }
    else l
  | none => l

/-- `UltraFastLogger.log_prealloc`: level gate; format; if the formatted
message would overflow the remaining buffer space, `flush()` first; then
slice-assign the message at the cursor and advance the cursor.  `none`
models the `KeyError` from `LEVEL_NAMES` on an undefined level. -/
def UltraFastLogger.log_prealloc (l : UltraFastLogger) (timeBytes : List Nat)
    (level : Nat) (msg : List Nat) : Option UltraFastLogger :=
  if level < l.level then some l
  else
    match LEVEL_NAMES level with
    | none => none
    | some nm =>
      let formatted := formatMessage timeBytes nm msg
      let msgLen := formatted.length
      let l1 := if l.buffer.length < l.bufferPos + msgLen then l.flush else l
      some { l1 with
        buffer := sliceAssign l1.buffer l1.bufferPos (l1.bufferPos + msgLen) formatted,
        bufferPos := l1.bufferPos + msgLen }

/-- The logical output stream of a logger with an open file: everything
already written plus the pending (unflushed) prefix of the buffer.  A
message is "lost or truncated" exactly when this stream fails to grow by
the full formatted message. -/
def UltraFastLogger.observed (l : UltraFastLogger) : List Nat :=
  (l.file?.getD []) ++ l.buffer.take l.bufferPos

/-! ## StaticFormatter (`lite.py` lines 226-298) -/

/-- The `__init__` scan loop: walk the template, recording the byte offset
of each (non-overlapping) `b'\x7b\x7d'` pair and skipping 2, else
advancing by 1.  `parseGo rest pos` scans the suffix `rest` of the
template that starts at absolute offset `pos`. -/
def parseGo : List Nat → Nat → List Nat
  | 123 :: 125 :: rest, pos => pos :: parseGo rest (pos + 2)
  | _ :: rest, pos => parseGo rest (pos + 1)
  | [], _ => []

def parseTemplate (t : List Nat) : List Nat := parseGo t 0

structure StaticFormatter where
  template : List Nat
  field_positions : List Nat
  field_lengths : List Nat

/-- `StaticFormatter.__init__`: every recorded placeholder length is 2. -/
def StaticFormatter.construct (t : List Nat) : StaticFormatter :=
  { template := t, field_positions := parseTemplate t,
    field_lengths := (parseTemplate t).map (fun _ => 2) }

inductive FmtError where
  | argCount
  | bufferTooBig
deriving DecidableEq

/-- The assembly loop of `format_static`, iterating over
`(field_position, field_length, argument)` triples: copy the literal span
before the placeholder into the scratch buffer, copy the argument, advance
both cursors. -/
def assembleLoop (t : List Nat) :
    List Nat → Nat → Nat → List (Nat × Nat × List Nat) → List Nat × Nat × Nat
  | buf, rp, tp, [] => (buf, rp, tp)
  | buf, rp, tp, (p, flen, a) :: rest =>
    let copyLen := p - tp
    let buf1 := sliceAssign buf rp (rp + copyLen) (listSlice t tp p)
    let rp1 := rp + copyLen
    let buf2 := sliceAssign buf1 rp1 (rp1 + a.length) a
    assembleLoop t buf2 (rp1 + a.length) (p + flen) rest

/-- `StaticFormatter.format_static`: validates the argument count
(`ValueError`, before the scratch buffer is touched), computes the total
output length (`len(arg) - 2` per argument, exact in `Int`), rejects
output larger than the scratch buffer (`BufferError`), then assembles the
result in the scratch buffer and returns `bytes(buf[:result_pos])`.  The
(possibly mutated) scratch buffer is returned alongside, since the Python
thread-local buffer persists across calls. -/
def StaticFormatter.format_static (sf : StaticFormatter) (args : List (List Nat))
    (buf0 : List Nat) : Except FmtError (List Nat) × List Nat :=
  if args.length ≠ sf.field_positions.length then (Except.error FmtError.argCount, buf0)
  else
    let total : Int :=
      (sf.template.length : Int) +
        args.foldl (fun acc a => acc + (a.length : Int) - 2) 0
    if (buf0.length : Int) < total then (Except.error FmtError.bufferTooBig, buf0)
    else
      let res := assembleLoop sf.template buf0 0 0
        (sf.field_positions.zip (sf.field_lengths.zip args))
      let rp := res.2.1
      let tp := res.2.2
      let remaining := sf.template.length - tp
      if 0 < remaining then
        let buf2 := sliceAssign res.1 rp (rp + remaining)
          (listSlice sf.template tp sf.template.length)
        (Except.ok (buf2.take (rp + remaining)), buf2)
      else (Except.ok (res.1.take rp), res.1)

/-- The substituted template, written as the plain interleaving the spec
describes: the literal span before each placeholder, then the
corresponding argument verbatim, then the tail after the last
placeholder.  (Spec-side description, compared against `format_static`.) -/
def renderSubst (t : List Nat) : Nat → List (Nat × List Nat) → List Nat
  | tp, [] => t.drop tp
  | tp, (p, a) :: rest => listSlice t tp p ++ a ++ renderSubst t (p + 2) rest

/-- `renderSubst` without the trailing literal span (what the assembly
loop itself produces; the tail is copied after the loop). -/
def loopRender (t : List Nat) : Nat → List (Nat × List Nat) → List Nat
  | _, [] => []
  | tp, (p, a) :: rest => listSlice t tp p ++ a ++ loopRender t (p + 2) rest

/-- The template cursor after processing a list of placeholder segments. -/
def finalTp : Nat → List (Nat × List Nat) → Nat
  | tp, [] => tp
  | _, (p, _) :: rest => finalTp (p + 2) rest

/-- Well-formedness of a placeholder position list with respect to a
template and a starting cursor: positions are in order, leave room for the
two placeholder bytes, and stay within the template. -/
def Segs (t : List Nat) : Nat → List Nat → Prop
  | tp, [] => tp ≤ t.length
  | tp, p :: ps => tp ≤ p ∧ p + 2 ≤ t.length ∧ Segs t (p + 2) ps

/-! # Theorems -/

/-! ## C1: dispatch never blocks, never raises, drops on full -/

theorem dispatch_of_full (d : Dispatcher) (r : Record) (hs : List Handler)
    (h : QUEUE_CAP ≤ d.queue.length) : d.dispatch r hs = d := by
  simp [Dispatcher.dispatch, putNowait, Nat.not_lt.mpr h]

theorem dispatch_of_room (d : Dispatcher) (r : Record) (hs : List Handler)
    (h : d.queue.length < QUEUE_CAP) :
    d.dispatch r hs = { d with queue := d.queue ++ [(r, hs)] } := by
  simp [Dispatcher.dispatch, putNowait, h]

theorem dispatch_queue_bound (d : Dispatcher) (r : Record) (hs : List Handler) :
    (d.dispatch r hs).queue.length ≤ max d.queue.length QUEUE_CAP := by
  by_cases h : d.queue.length < QUEUE_CAP
  · rw [dispatch_of_room d r hs h]
    simp
    omega
  · rw [dispatch_of_full d r hs (Nat.not_lt.mp h)]
    omega

theorem foldl_dispatch_bound (xs : List (Record × List Handler)) :
    ∀ d : Dispatcher,
      ((xs.foldl (fun d' rh => d'.dispatch rh.1 rh.2) d).queue.length
        ≤ max d.queue.length QUEUE_CAP) := by
  induction xs with
  | nil => intro d; simp
  | cons x xs ih =>
    intro d
    refine le_trans (ih (d.dispatch x.1 x.2)) ?_
    have := dispatch_queue_bound d x.1 x.2
    omega

/-- C1: `AsyncDispatcher.dispatch` returns normally for every record and
handler list (it is a total function; the `queue.Full` exception is
swallowed).  When the queue already holds `QUEUE_CAP` entries the record
is dropped and the queue is unchanged; otherwise the record (with its
attached handlers) is appended.  Consequently a burst of any number of
dispatches retains at most `max (initial length) QUEUE_CAP` entries:
excess records are dropped without corrupting the queue. -/
theorem C1_dispatch_backpressure (d : Dispatcher) (r : Record) (hs : List Handler) :
    (QUEUE_CAP ≤ d.queue.length → (d.dispatch r hs).queue = d.queue)
    ∧ (d.queue.length < QUEUE_CAP →
        (d.dispatch r hs).queue = d.queue ++ [(r, hs)])
    ∧ (∀ xs : List (Record × List Handler),
        (xs.foldl (fun d' rh => d'.dispatch rh.1 rh.2) d).queue.length
          ≤ max d.queue.length QUEUE_CAP) := by
  refine ⟨fun h => ?_, fun h => ?_, fun xs => foldl_dispatch_bound xs d⟩
  · rw [dispatch_of_full d r hs h]
  · rw [dispatch_of_room d r hs h]

/-- A record built by `_build_record` with every field defaulted; used as a
concrete input by witnesses. -/
def r0 : Record := {}

def fullQueue : List (Record × List Handler) := List.replicate 10000 (r0, [])

/-- C1 witness: a dispatch onto a queue at capacity leaves it unchanged; a
dispatch onto an empty queue appends the record. -/
theorem C1_dispatch_backpressure_witness :
    (Dispatcher.dispatch ⟨fullQueue, false, true, true⟩ r0 []).queue = fullQueue
    ∧ (Dispatcher.dispatch ⟨[], false, true, true⟩ r0 []).queue = [(r0, [])] :=
  ⟨(C1_dispatch_backpressure ⟨fullQueue, false, true, true⟩ r0 []).1
      (by unfold fullQueue QUEUE_CAP; rw [List.length_replicate]),
   (C1_dispatch_backpressure ⟨[], false, true, true⟩ r0 []).2.1
      (by unfold QUEUE_CAP; simp)⟩

/-! ## C2: behaviour of dispatch after shutdown

The claim says a dispatch after `shutdown()` recreates the Dispatcher with
a fresh running consumer.  In the code `shutdown` neither clears
`_instance` nor `_initialized`, so `AsyncDispatcher()` returns the same
stopped singleton and `__init__` returns early: no new consumer thread is
started and the stop event remains set.  The record is still enqueued, but
nothing ever drains the queue. -/

def c2AfterShutdown : DispatcherGlobal :=
  shutdownG (AsyncDispatcher.create { instance? := none }).1

def c2AfterRedispatch : DispatcherGlobal := logDispatch c2AfterShutdown r0 []

/-- C2 counterexample: create the singleton, shut it down, then dispatch a
record.  The resulting singleton still has no running consumer
(`workerRunning = false`) and its stop event still set, with the record
sitting in the queue — the Dispatcher was not recreated and the record
will never be processed. -/
theorem C2_counterexample :
    (c2AfterRedispatch.instance?.map Dispatcher.workerRunning) = some false
    ∧ (c2AfterRedispatch.instance?.map Dispatcher.stopSet) = some true
    ∧ (c2AfterRedispatch.instance?.map (fun d => d.queue.length)) = some 1 := by
  decide

theorem dispatch_preserves_flags (d : Dispatcher) (r : Record) (hs : List Handler) :
    (d.dispatch r hs).workerRunning = d.workerRunning
    ∧ (d.dispatch r hs).stopSet = d.stopSet
    ∧ (d.dispatch r hs).initialized = d.initialized := by
  unfold Dispatcher.dispatch
  cases putNowait QUEUE_CAP d.queue (r, hs) <;> simp

/-- C2 amended: after `shutdown()` a subsequent dispatch reuses the same
singleton without re-initializing it: the result is exactly the stopped
instance with the record enqueued by `dispatch`, its consumer not running
and its stop event still set, so records dispatched after shutdown are
never processed (the singleton does not re-arm). -/
theorem C2_amended_no_rearm (g : DispatcherGlobal) (d : Dispatcher) (r : Record)
    (hs : List Handler) (hinst : g.instance? = some d) (hinit : d.initialized = true) :
    (logDispatch (shutdownG g) r hs).instance? = some ((d.shutdown).dispatch r hs)
    ∧ ((d.shutdown).dispatch r hs).workerRunning = false
    ∧ ((d.shutdown).dispatch r hs).stopSet = true := by
  have h1 : shutdownG g = { instance? := some d.shutdown } := by
    simp [shutdownG, hinst]
  have h2 : (d.shutdown).initialized = true := by
    simp [Dispatcher.shutdown, hinit]
  refine ⟨?_, ?_, ?_⟩
  · simp [logDispatch, h1, AsyncDispatcher.create, h2]
  · rw [(dispatch_preserves_flags d.shutdown r hs).1]
    simp [Dispatcher.shutdown]
  · rw [(dispatch_preserves_flags d.shutdown r hs).2.1]
    simp [Dispatcher.shutdown]

/-- C2 witness: the amended theorem applied to a freshly created
singleton and a concrete record. -/
theorem C2_amended_no_rearm_witness :
    (logDispatch (shutdownG { instance? := some freshDispatcher }) r0 []).instance?
      = some ((freshDispatcher.shutdown).dispatch r0 [])
    ∧ ((freshDispatcher.shutdown).dispatch r0 []).workerRunning = false :=
  ⟨(C2_amended_no_rearm { instance? := some freshDispatcher } freshDispatcher r0 []
      rfl rfl).1,
   (C2_amended_no_rearm { instance? := some freshDispatcher } freshDispatcher r0 []
      rfl rfl).2.1⟩

/-! ## C6: the rebuilt filter chain is a short-circuit AND -/

theorem rebuildFilterChain_nil (r : Record) :
    rebuildFilterChain [] r = some r := rfl

theorem rebuildFilterChain_cons (f : Record → Bool) (fs : List (Record → Bool))
    (r : Record) :
    rebuildFilterChain (f :: fs) r = if f r then rebuildFilterChain fs r else none := by
  simp [rebuildFilterChain, List.foldl_append]

theorem rebuildFilterChain_some_iff (fs : List (Record → Bool)) (r : Record) :
    rebuildFilterChain fs r = some r ↔ ∀ g ∈ fs, g r = true := by
  induction fs with
  | nil => simp [rebuildFilterChain_nil]
  | cons f fs ih =>
    rw [rebuildFilterChain_cons]
    by_cases hf : f r
    · simp [hf, ih]
    · have hf' : f r = false := by simpa using hf
      rw [if_neg (by simp [hf'])]
      constructor
      · intro h
        exact absurd h (by simp)
      · intro hall
        exact absurd (hall f (List.mem_cons_self f fs)) (by simp [hf'])

theorem rebuildFilterChain_none_iff (fs : List (Record → Bool)) (r : Record) :
    rebuildFilterChain fs r = none ↔ ∃ g ∈ fs, g r = false := by
  induction fs with
  | nil => simp [rebuildFilterChain_nil]
  | cons f fs ih =>
    rw [rebuildFilterChain_cons]
    by_cases hf : f r
    · simp [hf, ih]
    · have hf' : f r = false := by simpa using hf
      rw [if_neg (by simp [hf'])]
      constructor
      · intro _
        exact ⟨f, List.mem_cons_self f fs, hf'⟩
      · intro _
        rfl

/-- C6: the rebuilt filter chain is the logical AND of the registered
filters, evaluated in registration order with short-circuit on the first
reject (the `cons` equation tests the first-registered filter first): a
record passes iff every filter accepts it, the chain rejects iff some
filter rejects, and the empty chain accepts everything. -/
theorem C6_filter_chain_and (fs : List (Record → Bool)) (f : Record → Bool)
    (r : Record) :
    (rebuildFilterChain [] r = some r)
    ∧ (rebuildFilterChain (f :: fs) r
        = if f r then rebuildFilterChain fs r else none)
    ∧ (rebuildFilterChain fs r = some r ↔ ∀ g ∈ fs, g r = true)
    ∧ (rebuildFilterChain fs r = none ↔ ∃ g ∈ fs, g r = false) :=
  ⟨rebuildFilterChain_nil r, rebuildFilterChain_cons f fs r,
   rebuildFilterChain_some_iff fs r, rebuildFilterChain_none_iff fs r⟩

/-- C6 witness: the empty chain accepts a concrete record, and a concrete
one-filter chain with a rejecting filter rejects it. -/
theorem C6_filter_chain_and_witness :
    rebuildFilterChain [] r0 = some r0
    ∧ rebuildFilterChain [fun _ => false] r0 = none :=
  ⟨(C6_filter_chain_and [] (fun _ => false) r0).1,
   (C6_filter_chain_and [fun _ => false] (fun _ => false) r0).2.2.2.mpr
     ⟨fun _ => false, by simp⟩⟩

/-! ## C7: SamplingFilter with rate ≤ 0

The claim says a rate N ≤ 0 fails fast with a descriptive configuration
error.  In the code `__init__` performs no validation at all, and
`filter` with a negative rate returns normally (Python `%` is defined for
negative divisors); only rate = 0 raises, and then only a
`ZeroDivisionError` at call time. -/

/-- C7 counterexample: constructing a SamplingFilter with rate −1 succeeds
(the rate is stored verbatim, nothing is rejected) and the first `filter`
call returns normally with `True` — and with rate −5 it returns `False` —
rather than failing with a configuration error. -/
theorem C7_counterexample :
    (SamplingFilter.construct (-1)).rate = -1
    ∧ (SamplingFilter.filterStep (SamplingFilter.construct (-1))).2 = Except.ok true
    ∧ (SamplingFilter.filterStep (SamplingFilter.construct (-5))).2 = Except.ok false :=
  ⟨rfl, rfl, rfl⟩

/-- C7 amended: `SamplingFilter.__init__` accepts any rate (including
N ≤ 0) without validation; the only failure is at call time, where
`filter` raises `ZeroDivisionError` exactly when the stored rate is 0;
for every nonzero (in particular negative) rate `filter` returns normally
with `counter % rate == 0` under Python floor-mod semantics. -/
theorem C7_amended_no_validation (rate : Int) (s : SamplingFilter) :
    (SamplingFilter.construct rate = { rate := rate, counter := 0 })
    ∧ (s.rate = 0 → (s.filterStep).2 = Except.error ())
    ∧ (s.rate ≠ 0 →
        (s.filterStep).2 = Except.ok (decide (Int.fmod (s.counter + 1) s.rate = 0)))
    ∧ (s.rate < 0 → ∃ b, (s.filterStep).2 = Except.ok b) := by
  refine ⟨rfl, fun h => ?_, fun h => ?_, fun h => ?_⟩
  · simp [SamplingFilter.filterStep, h]
  · simp [SamplingFilter.filterStep, h]
  · refine ⟨decide (Int.fmod (s.counter + 1) s.rate = 0), ?_⟩
    simp [SamplingFilter.filterStep, Int.ne_of_lt h]

/-! ## C5: batch flush fans out by handler threshold; failures do not abort -/

theorem flushRecord_aux (r : Record) (hs : List Handler)
    (acc : List (Nat × Except Unit String)) :
    hs.foldl
      (fun acc h =>
        if r.level < h.level then acc else acc ++ [(h.id, h.formatter.format r)])
      acc
    = acc ++ (hs.filter (fun h => decide (h.level ≤ r.level))).map
        (fun h => (h.id, h.formatter.format r)) := by
  induction hs generalizing acc with
  | nil => simp
  | cons h hs ih =>
    simp only [List.foldl_cons]
    by_cases hc : r.level < h.level
    · rw [if_pos hc, ih]
      have hd : (decide (h.level ≤ r.level)) = false := by
        simp only [decide_eq_false_iff_not]
        omega
      simp [List.filter_cons, hd]
    · rw [if_neg hc, ih]
      have hd : (decide (h.level ≤ r.level)) = true := by
        simp only [decide_eq_true_eq]
        omega
      simp [List.filter_cons, hd]

theorem flushRecord_eq (r : Record) (hs : List Handler) :
    flushRecord r hs
      = (hs.filter (fun h => decide (h.level ≤ r.level))).map
          (fun h => (h.id, h.formatter.format r)) := by
  unfold flushRecord
  rw [flushRecord_aux]
  simp

theorem flushBatch_aux (b : List (Record × List Handler)) :
    ∀ acc, b.foldl (fun acc rh => acc ++ flushRecord rh.1 rh.2) acc
      = acc ++ b.foldl (fun acc rh => acc ++ flushRecord rh.1 rh.2) [] := by
  induction b with
  | nil => intro acc; simp
  | cons x b ih =>
    intro acc
    simp only [List.foldl_cons, List.nil_append]
    rw [ih (acc ++ flushRecord x.1 x.2), ih (flushRecord x.1 x.2), List.append_assoc]

/-- C5: during a batch flush, each record's attempt list is exactly its
attached handlers whose level threshold does not exceed the record's
severity, each paired with its own formatter's result (`.ok` = formatted
and emitted, `.error` = the caught exception, diagnosed and skipped).  A
failing (record, handler) pair never removes later pairs of the same
record, nor later records of the batch, from processing: flushing
distributes over concatenation of handler lists and of batches. -/
theorem C5_flush_fanout_no_abort (r : Record) (hs hs1 hs2 : List Handler)
    (b1 b2 : List (Record × List Handler)) :
    (flushRecord r hs
      = (hs.filter (fun h => decide (h.level ≤ r.level))).map
          (fun h => (h.id, h.formatter.format r)))
    ∧ (flushRecord r (hs1 ++ hs2) = flushRecord r hs1 ++ flushRecord r hs2)
    ∧ (flushBatch (b1 ++ b2) = flushBatch b1 ++ flushBatch b2) := by
  refine ⟨flushRecord_eq r hs, ?_, ?_⟩
  · rw [flushRecord_eq, flushRecord_eq, flushRecord_eq, List.filter_append,
      List.map_append]
  · unfold flushBatch
    rw [List.foldl_append, flushBatch_aux b2]

/-! ## C4: emit bypasses the formatter when a string message is present -/

def c4Formatter : Formatter :=
  Formatter.compiled [Tok.field "levelname", Tok.lit ": ", Tok.field "message"]
    (fun _ => "")

def c4Handler : Handler := { id := 0, level := 20, formatter := c4Formatter }

def c4Record : Record := { level := 20, message? := some "hi" }

/-- C4 counterexample: a handler whose formatter renders
`"{levelname}: {message}"` receives a record whose `message` field is the
string `"hi"`.  `emit` writes `"hi\n"` verbatim — not the formatter's
output `"INFO: hi"` followed by the line terminator — so the bytes written
are not the formatter's output for that record. -/
theorem C4_counterexample :
    ConsoleHandler.emitLine c4Handler c4Record = some "hi\n"
    ∧ c4Handler.formatter.format c4Record = Except.ok "INFO: hi"
    ∧ ("hi\n" : String) ≠ "INFO: hi" ++ "\n" :=
  ⟨rfl, rfl, by decide⟩

/-- C4 amended: `emit` writes the record's `message` string verbatim plus
`'\n'` whenever the record carries a string `message` (the path used by
the dispatcher, which pre-formats and hands `emit` a `{'message': msg}`
dict — and also the path taken by every record built by `_build_record`);
only a record without a string `message` is formatted with the handler's
own formatter before writing, and a formatter error writes nothing.  The
same discipline governs `FileHandler.emit`. -/
theorem C4_amended_emit_verbatim_message (h : Handler) (fh : FileHandler) (fs : FS)
    (r : Record) (m s : String) :
    (r.message? = some m → ConsoleHandler.emitLine h r = some (m ++ "\n"))
    ∧ (r.message? = none → h.formatter.format r = Except.ok s →
        ConsoleHandler.emitLine h r = some (s ++ "\n"))
    ∧ (r.message? = none → h.formatter.format r = Except.error () →
        ConsoleHandler.emitLine h r = none)
    ∧ (fh.shouldRollover fs = false → r.message? = some m →
        FileHandler.emit fh fs r = (fh, fh.writeIfOpen fs (m ++ "\n"))) := by
  refine ⟨fun h1 => ?_, fun h1 h2 => ?_, fun h1 h2 => ?_, fun h1 h2 => ?_⟩
  · simp [ConsoleHandler.emitLine, h1]
  · simp [ConsoleHandler.emitLine, h1, h2]
  · simp [ConsoleHandler.emitLine, h1, h2]
  · simp [FileHandler.emit, h1, h2]

/-- C4 witness: the amended theorem at a concrete handler and record. -/
theorem C4_amended_emit_verbatim_message_witness :
    ConsoleHandler.emitLine c4Handler c4Record = some ("hi" ++ "\n") :=
  (C4_amended_emit_verbatim_message c4Handler
    { filename := "x", level := 20, max_bytes := 10, backup_count := 0,
      formatter := c4Formatter, file := none }
    [] c4Record "hi" "").1 rfl

/-! ## C10: FileHandler with a bare filename (no directory component) -/

/-- C10: when the filename has no directory component,
`os.makedirs('')` raises inside `_open_file`, the error is caught (only
printed), and `self._file` stays `None`; from then on `emit`,
`_emit_batch` and `close` are silent no-ops: the handler state and the
filesystem are returned unchanged and nothing is ever raised (all the
modelled operations are total). -/
theorem C10_missing_dirname_noop (filename : String) (level mb bc : Nat)
    (fmt : Formatter) (fs : FS) (r : Record) (msgs : List String)
    (hdir : dirname filename = "") :
    ((FileHandler.construct filename level mb bc fmt fs).1.file = none)
    ∧ ((FileHandler.construct filename level mb bc fmt fs).2 = fs)
    ∧ (FileHandler.emit (FileHandler.construct filename level mb bc fmt fs).1 fs r
        = ((FileHandler.construct filename level mb bc fmt fs).1, fs))
    ∧ (FileHandler.emitBatch (FileHandler.construct filename level mb bc fmt fs).1 fs
          msgs
        = ((FileHandler.construct filename level mb bc fmt fs).1, fs))
    ∧ (FileHandler.close (FileHandler.construct filename level mb bc fmt fs).1 fs
        = ((FileHandler.construct filename level mb bc fmt fs).1, fs)) := by
  have hc : FileHandler.construct filename level mb bc fmt fs
      = ({ filename := filename, level := level, max_bytes := mb, backup_count := bc,
           formatter := fmt, file := none }, fs) := by
    simp [FileHandler.construct, FileHandler.openFileM, hdir]
  rw [hc]
  refine ⟨rfl, rfl, ?_, ?_, rfl⟩
  · cases hm : r.message? with
    | some m => simp [FileHandler.emit, FileHandler.shouldRollover,
        FileHandler.writeIfOpen, hm]
    | none =>
      cases hf : Formatter.format fmt r with
      | ok s => simp [FileHandler.emit, FileHandler.shouldRollover,
          FileHandler.writeIfOpen, hm, hf]
      | error e => simp [FileHandler.emit, FileHandler.shouldRollover,
          FileHandler.writeIfOpen, hm, hf]
  · simp [FileHandler.emitBatch, FileHandler.shouldRollover, FileHandler.writeIfOpen]

/-- C10 witness: the theorem at the concrete bare filename `"app.log"`. -/
theorem C10_missing_dirname_noop_witness :
    ((FileHandler.construct "app.log" 20 10 5 c4Formatter []).1.file = none)
    ∧ (FileHandler.emit (FileHandler.construct "app.log" 20 10 5 c4Formatter []).1 [] r0
        = ((FileHandler.construct "app.log" 20 10 5 c4Formatter []).1, [])) :=
  ⟨(C10_missing_dirname_noop "app.log" 20 10 5 c4Formatter [] r0 ["a"] rfl).1,
   (C10_missing_dirname_noop "app.log" 20 10 5 c4Formatter [] r0 ["a"] rfl).2.2.1⟩

/-! ## C3: rotation with backup_count = 0

The claim (and the spec) say rotation then truncates the active file.  In
the code `_do_rollover` with `backup_count = 0` skips the whole rename
cascade and `_open_file` reopens the base file in `'a'` (append) mode,
which never truncates: the contents survive and the file keeps growing
past `max_bytes`. -/

def c3Handler : FileHandler :=
  { filename := "logs/app.log", level := 20, max_bytes := 10, backup_count := 0,
    formatter := c4Formatter, file := some () }

def c3FS : FS := [("logs/app.log", "0123456789")]

/-- C3 counterexample: a handler with `backup_count = 0` and
`max_bytes = 10` whose file holds 10 bytes.  The rollover check fires, and
after `_do_rollover` the active file still holds the same 10 bytes — it
was not truncated to empty — while (as the claim correctly says) no backup
file was created. -/
theorem C3_counterexample :
    (FileHandler.shouldRollover c3Handler c3FS = true)
    ∧ FS.lookup (FileHandler.doRollover c3Handler c3FS).2 "logs/app.log"
        = some "0123456789"
    ∧ FS.lookup (FileHandler.doRollover c3Handler c3FS).2 "logs/app.log.1" = none
    ∧ ("0123456789" : String) ≠ "" :=
  ⟨rfl, rfl, rfl, by decide⟩

theorem lookup_openAppend (fs : FS) (n : String) :
    FS.lookup (FS.openAppend fs n) n = some ((FS.lookup fs n).getD "") := by
  unfold FS.openAppend
  cases h : FS.lookup fs n with
  | some c => simp [h]
  | none => simp [FS.lookup, h]

/-- C3 amended: with `backup_count = 0` (and a filename that has a
directory component, so reopening succeeds), `_do_rollover` creates or
keeps no backup files and merely closes and reopens the active file in
append mode: the filesystem afterwards is exactly `openAppend` of the
original, the active file's contents are preserved (empty only if the file
did not exist), and the handler holds a fresh open handle.  The active
file is NOT truncated on rotation. -/
theorem C3_amended_rollover_keeps_contents (h : FileHandler) (fs : FS)
    (hbc : h.backup_count = 0) (hdir : dirname h.filename ≠ "") :
    (FileHandler.doRollover h fs).2 = FS.openAppend fs h.filename
    ∧ FS.lookup (FileHandler.doRollover h fs).2 h.filename
        = some ((FS.lookup fs h.filename).getD "")
    ∧ (FileHandler.doRollover h fs).1 = { h with file := some () } := by
  have hd : FileHandler.doRollover h fs
      = ({ h with file := some () }, FS.openAppend fs h.filename) := by
    unfold FileHandler.doRollover FileHandler.openFileM
    rw [hbc]
    simp [hdir]
  rw [hd]
  exact ⟨rfl, lookup_openAppend fs h.filename, rfl⟩

/-- C3 witness: the amended theorem at the concrete handler and
filesystem of the counterexample. -/
theorem C3_amended_rollover_keeps_contents_witness :
    (FileHandler.doRollover c3Handler c3FS).2 = FS.openAppend c3FS "logs/app.log"
    ∧ FS.lookup (FileHandler.doRollover c3Handler c3FS).2 "logs/app.log"
        = some ((FS.lookup c3FS "logs/app.log").getD "") :=
  ⟨(C3_amended_rollover_keeps_contents c3Handler c3FS rfl (by decide)).1,
   (C3_amended_rollover_keeps_contents c3Handler c3FS rfl (by decide)).2.1⟩

/-! ## C8: log_prealloc buffer discipline

The flush-before-overflow logic is sound for any message whose formatted
form fits the buffer's capacity; but a single formatted message larger
than the whole buffer is written by a slice assignment past the end of the
bytearray, which grows it — violating the claim's "no growth, no
reallocation". -/

theorem sliceAssign_length (buf data : List Nat) (i : Nat)
    (h : i + data.length ≤ buf.length) :
    (sliceAssign buf i (i + data.length) data).length = buf.length := by
  unfold sliceAssign
  simp only [List.length_append, List.length_take, List.length_drop]
  omega

theorem sliceAssign_take (buf data : List Nat) (i : Nat) (h : i ≤ buf.length) :
    (sliceAssign buf i (i + data.length) data).take (i + data.length)
      = buf.take i ++ data := by
  unfold sliceAssign
  refine List.take_left' ?_
  simp only [List.length_append, List.length_take]
  omega

theorem flush_of_file (l : UltraFastLogger) (f : List Nat) (hfile : l.file? = some f) :
    l.flush = if 0 < l.bufferPos then
        { l with file? := some (f ++ l.buffer.take l.bufferPos), bufferPos := 0 }
      else l := by
  unfold UltraFastLogger.flush
  rw [hfile]

/-- C8 amended: a `log_prealloc` call whose formatted message fits the
buffer's capacity (and is not level-suppressed, on a logger with an open
file and a cursor within bounds) triggers an implicit flush exactly when
the message would overflow the remaining space, before the write; the
logical output stream (file contents plus pending buffer prefix) grows by
exactly the formatted message — nothing lost or truncated — and the
buffer's capacity is unchanged.  A formatted message larger than the whole
buffer instead grows the buffer (see the counterexample). -/
theorem C8_amended_prealloc_no_loss (l : UltraFastLogger)
    (timeBytes msg nm f : List Nat) (level : Nat)
    (hfile : l.file? = some f)
    (hpos : l.bufferPos ≤ l.buffer.length)
    (hlev : l.level ≤ level)
    (hnm : LEVEL_NAMES level = some nm)
    (hfit : (formatMessage timeBytes nm msg).length ≤ l.buffer.length) :
    ∃ l', l.log_prealloc timeBytes level msg = some l'
      ∧ l'.buffer.length = l.buffer.length
      ∧ l'.observed = l.observed ++ formatMessage timeBytes nm msg
      ∧ l'.bufferPos ≤ l'.buffer.length
      ∧ l'.file?.isSome := by
  have hnotlt : ¬ level < l.level := Nat.not_lt.mpr hlev
  unfold UltraFastLogger.log_prealloc
  rw [if_neg hnotlt, hnm]
  simp only []
  by_cases hov : l.buffer.length < l.bufferPos + (formatMessage timeBytes nm msg).length
  · -- overflow: flush first, then write at cursor 0
    have hpos0 : 0 < l.bufferPos := by omega
    rw [if_pos hov, flush_of_file l f hfile, if_pos hpos0]
    refine ⟨_, rfl, ?_, ?_, ?_, ?_⟩
    · exact sliceAssign_length l.buffer (formatMessage timeBytes nm msg) 0
        (by simpa using hfit)
    · show (some (f ++ l.buffer.take l.bufferPos)).getD []
          ++ (sliceAssign l.buffer 0 (0 + (formatMessage timeBytes nm msg).length)
              (formatMessage timeBytes nm msg)).take
             (0 + (formatMessage timeBytes nm msg).length)
        = (l.file?.getD [] ++ l.buffer.take l.bufferPos)
            ++ formatMessage timeBytes nm msg
      rw [sliceAssign_take l.buffer (formatMessage timeBytes nm msg) 0 (Nat.zero_le _),
        hfile]
      simp
    · show 0 + (formatMessage timeBytes nm msg).length
        ≤ (sliceAssign l.buffer 0 (0 + (formatMessage timeBytes nm msg).length)
            (formatMessage timeBytes nm msg)).length
      rw [sliceAssign_length l.buffer (formatMessage timeBytes nm msg) 0
        (by simpa using hfit)]
      omega
    · rfl
  · -- the message fits in the remaining space: no flush
    rw [if_neg hov]
    have hle : l.bufferPos + (formatMessage timeBytes nm msg).length
        ≤ l.buffer.length := Nat.not_lt.mp hov
    refine ⟨_, rfl, ?_, ?_, ?_, ?_⟩
    · exact sliceAssign_length l.buffer (formatMessage timeBytes nm msg)
        l.bufferPos hle
    · show l.file?.getD []
          ++ (sliceAssign l.buffer l.bufferPos
              (l.bufferPos + (formatMessage timeBytes nm msg).length)
              (formatMessage timeBytes nm msg)).take
             (l.bufferPos + (formatMessage timeBytes nm msg).length)
        = (l.file?.getD [] ++ l.buffer.take l.bufferPos)
            ++ formatMessage timeBytes nm msg
      rw [sliceAssign_take l.buffer (formatMessage timeBytes nm msg) l.bufferPos hpos]
      simp
    · show l.bufferPos + (formatMessage timeBytes nm msg).length
        ≤ (sliceAssign l.buffer l.bufferPos
            (l.bufferPos + (formatMessage timeBytes nm msg).length)
            (formatMessage timeBytes nm msg)).length
      rw [sliceAssign_length l.buffer (formatMessage timeBytes nm msg) l.bufferPos hle]
      omega
    · rw [hfile]
      rfl

/-- An oversized formatted message (larger than the whole buffer), written
from cursor 0, replaces the buffer by the message itself: the bytearray
grows. -/
theorem log_prealloc_oversize (l : UltraFastLogger) (timeBytes msg nm f : List Nat)
    (level : Nat)
    (hfile : l.file? = some f) (hpos : l.bufferPos = 0)
    (hlev : l.level ≤ level) (hnm : LEVEL_NAMES level = some nm)
    (hbig : l.buffer.length < (formatMessage timeBytes nm msg).length) :
    l.log_prealloc timeBytes level msg
      = some { l with buffer := formatMessage timeBytes nm msg,
                      bufferPos := (formatMessage timeBytes nm msg).length } := by
  have hnotlt : ¬ level < l.level := Nat.not_lt.mpr hlev
  unfold UltraFastLogger.log_prealloc
  rw [if_neg hnotlt, hnm]
  simp only []
  have hov : l.buffer.length < l.bufferPos + (formatMessage timeBytes nm msg).length := by
    omega
  rw [if_pos hov, flush_of_file l f hfile, if_neg (by omega)]
  rw [hpos]
  unfold sliceAssign
  rw [List.take_zero, Nat.zero_add, Nat.max_eq_right (Nat.zero_le _),
    Nat.min_eq_right (Nat.le_of_lt hbig), List.drop_length]
  simp

def c8Logger : UltraFastLogger :=
  { level := 20, buffer := ULTRA_BUFFER, bufferPos := 0, file? := some [] }

def c8Msg : List Nat := List.replicate 1048576 65

def c8Time : List Nat := List.replicate 19 48

theorem c8_formatted_length :
    (formatMessage c8Time [73, 78, 70, 79] c8Msg).length = 1048604 := by
  have h1 : c8Time.length = 19 := List.length_replicate 19 48
  have h2 : c8Msg.length = 1048576 := List.length_replicate 1048576 65
  rw [formatMessage, List.length_append, List.length_append, List.length_append,
    List.length_append, List.length_append, h1, h2]
  rfl

/-- C8 counterexample: one `log_prealloc` of a 1 MiB message on a fresh
logger.  The formatted message (1048604 bytes) exceeds the 1 MiB buffer,
the implicit flush is a no-op (nothing pending), and the slice assignment
extends the bytearray: the buffer's length changes from 1048576 to
1048604 — the capacity is not preserved, refuting "no growth, no
reallocation". -/
theorem C8_counterexample :
    ((c8Logger.log_prealloc c8Time 20 c8Msg).map fun l => l.buffer.length)
      = some 1048604
    ∧ c8Logger.buffer.length = 1048576
    ∧ (1048604 : Nat) ≠ 1048576 := by
  have hbuf : c8Logger.buffer.length = 1048576 := by
    show ULTRA_BUFFER.length = 1048576
    unfold ULTRA_BUFFER
    rw [List.length_replicate]
  refine ⟨?_, hbuf, by omega⟩
  rw [log_prealloc_oversize c8Logger c8Time c8Msg [73, 78, 70, 79] [] 20 rfl rfl
    (Nat.le_refl 20) rfl (by rw [hbuf, c8_formatted_length]; omega)]
  show some ((formatMessage c8Time [73, 78, 70, 79] c8Msg).length) = some 1048604
  rw [c8_formatted_length]

/-- C8 witness: the amended theorem at a small concrete state — cursor 6
of an 16-byte buffer, message formatted to 9 bytes, so the write would
overflow and the flush fires first; the observed stream grows by exactly
the formatted message and the capacity stays 16. -/
theorem C8_amended_prealloc_no_loss_witness :
    ∃ l', UltraFastLogger.log_prealloc
        { level := 20, buffer := List.replicate 16 0, bufferPos := 6,
          file? := some [] } [] 20 [] = some l'
      ∧ l'.buffer.length
          = (List.replicate 16 0 : List Nat).length
      ∧ l'.observed
          = UltraFastLogger.observed
              { level := 20, buffer := List.replicate 16 0, bufferPos := 6,
                file? := some [] }
            ++ formatMessage [] [73, 78, 70, 79] []
      ∧ l'.bufferPos ≤ l'.buffer.length
      ∧ l'.file?.isSome :=
  C8_amended_prealloc_no_loss
    { level := 20, buffer := List.replicate 16 0, bufferPos := 6, file? := some [] }
    [] [] [73, 78, 70, 79] [] 20 rfl (by simp) (by simp) rfl (by simp [formatMessage])

/-! ## C9: StaticFormatter round-trip

Plan: the `__init__` scan produces an ordered, in-bounds list of
placeholder offsets (`Segs`), each marking a literal `\x7b\x7d` pair; under
that invariant the assembly loop of `format_static` writes exactly the
interleaving `renderSubst` of literal spans and arguments into the scratch
buffer; the mismatched-argument-count branch errors out before touching
the buffer. -/

theorem listSlice_length (t : List Nat) (i j : Nat) (h1 : i ≤ j) (h2 : j ≤ t.length) :
    (listSlice t i j).length = j - i := by
  unfold listSlice
  rw [List.length_take, List.length_drop]
  omega

theorem segs_mono (t : List Nat) (ps : List Nat) :
    ∀ tp tp', tp' ≤ tp → Segs t tp ps → Segs t tp' ps := by
  cases ps with
  | nil =>
    intro tp tp' h hs
    exact le_trans h hs
  | cons p ps =>
    intro tp tp' h hs
    exact ⟨le_trans h hs.1, hs.2.1, hs.2.2⟩

theorem parseGo_segs (rest : List Nat) (pos : Nat) :
    ∀ t : List Nat, t.drop pos = rest → pos ≤ t.length →
      Segs t pos (parseGo rest pos) := by
  induction rest, pos using parseGo.induct with
  | case1 rest pos ih =>
    intro t hdrop hpos
    have hlen : t.length - pos = rest.length + 2 := by
      have := congrArg List.length hdrop
      rw [List.length_drop] at this
      simpa using this
    have hp2 : pos + 2 ≤ t.length := by omega
    have hdrop2 : t.drop (pos + 2) = rest := by
      have : (t.drop pos).drop 2 = t.drop (pos + 2) := List.drop_drop 2 pos t
      rw [hdrop] at this
      exact this.symm
    have hrec := ih t hdrop2 hp2
    simp only [parseGo]
    exact ⟨Nat.le_refl pos, hp2, hrec⟩
  | case2 head rest pos hne ih =>
    intro t hdrop hpos
    have hlen : t.length - pos = rest.length + 1 := by
      have := congrArg List.length hdrop
      rw [List.length_drop] at this
      simpa using this
    have hp1 : pos + 1 ≤ t.length := by omega
    have hdrop1 : t.drop (pos + 1) = rest := by
      have : (t.drop pos).drop 1 = t.drop (pos + 1) := List.drop_drop 1 pos t
      rw [hdrop] at this
      exact this.symm
    have hrec := segs_mono t _ (pos + 1) pos (Nat.le_succ pos) (ih t hdrop1 hp1)
    have hstep : parseGo (head :: rest) pos = parseGo rest (pos + 1) := by
      match rest, hne with
      | [], _ => simp [parseGo]
      | b :: rest', hne =>
        by_cases h123 : head = 123
        · by_cases h125 : b = 125
          · exact (hne rest' h123 (by rw [h125])).elim
          · subst h123
            simp [parseGo, h125]
        · simp [parseGo, h123]
    rw [hstep]
    exact hrec
  | case3 pos =>
    intro t hdrop hpos
    simpa only [parseGo] using hpos

theorem parseTemplate_segs (t : List Nat) : Segs t 0 (parseTemplate t) :=
  parseGo_segs t 0 t (List.drop_zero t) (Nat.zero_le _)

theorem parseGo_braces (rest : List Nat) (pos : Nat) :
    ∀ t : List Nat, t.drop pos = rest →
      ∀ p ∈ parseGo rest pos, listSlice t p (p + 2) = [123, 125] := by
  induction rest, pos using parseGo.induct with
  | case1 rest pos ih =>
    intro t hdrop p hp
    simp only [parseGo, List.mem_cons] at hp
    rcases hp with hp | hp
    · subst hp
      unfold listSlice
      rw [hdrop]
      simp
    · have hdrop2 : t.drop (pos + 2) = rest := by
        have : (t.drop pos).drop 2 = t.drop (pos + 2) := List.drop_drop 2 pos t
        rw [hdrop] at this
        exact this.symm
      exact ih t hdrop2 p hp
  | case2 head rest pos hne ih =>
    intro t hdrop p hp
    have hdrop1 : t.drop (pos + 1) = rest := by
      have : (t.drop pos).drop 1 = t.drop (pos + 1) := List.drop_drop 1 pos t
      rw [hdrop] at this
      exact this.symm
    have hstep : parseGo (head :: rest) pos = parseGo rest (pos + 1) := by
      match rest, hne with
      | [], _ => simp [parseGo]
      | b :: rest', hne =>
        by_cases h123 : head = 123
        · by_cases h125 : b = 125
          · exact (hne rest' h123 (by rw [h125])).elim
          · subst h123
            simp [parseGo, h125]
        · simp [parseGo, h123]
    rw [hstep] at hp
    exact ih t hdrop1 p hp
  | case3 pos =>
    intro t hdrop p hp
    simp only [parseGo, List.not_mem_nil] at hp

theorem parseTemplate_braces (t : List Nat) :
    ∀ p ∈ parseTemplate t, listSlice t p (p + 2) = [123, 125] :=
  parseGo_braces t 0 t (List.drop_zero t)

theorem renderSubst_length (t : List Nat) (segs : List (Nat × List Nat)) :
    ∀ tp, Segs t tp (segs.map Prod.fst) →
      (renderSubst t tp segs).length + tp + 2 * segs.length
        = t.length + (segs.map (fun s => s.2.length)).sum := by
  induction segs with
  | nil =>
    intro tp hs
    have htp : tp ≤ t.length := hs
    simp only [renderSubst, List.length_drop, List.length_nil, List.map_nil,
      List.sum_nil]
    omega
  | cons pa rest ih =>
    intro tp hs
    obtain ⟨p, a⟩ := pa
    have h1 : tp ≤ p := hs.1
    have h2 : p + 2 ≤ t.length := hs.2.1
    have h3 := ih (p + 2) hs.2.2
    simp only [renderSubst, List.length_append, List.map_cons, List.sum_cons,
      List.length_cons]
    rw [listSlice_length t tp p h1 (by omega)]
    omega

theorem renderSubst_eq_loopRender (t : List Nat) (segs : List (Nat × List Nat)) :
    ∀ tp, renderSubst t tp segs = loopRender t tp segs ++ t.drop (finalTp tp segs) := by
  induction segs with
  | nil =>
    intro tp
    simp [renderSubst, loopRender, finalTp]
  | cons pa rest ih =>
    intro tp
    obtain ⟨p, a⟩ := pa
    simp [renderSubst, loopRender, finalTp, ih (p + 2), List.append_assoc]

theorem finalTp_le (t : List Nat) (segs : List (Nat × List Nat)) :
    ∀ tp, Segs t tp (segs.map Prod.fst) → finalTp tp segs ≤ t.length := by
  induction segs with
  | nil =>
    intro tp hs
    exact hs
  | cons pa rest ih =>
    intro tp hs
    obtain ⟨p, a⟩ := pa
    exact ih (p + 2) hs.2.2

theorem assembleLoop_spec (t : List Nat) (segs : List (Nat × List Nat)) :
    ∀ (buf : List Nat) (rp tp : Nat),
      Segs t tp (segs.map Prod.fst) →
      rp + (renderSubst t tp segs).length ≤ buf.length →
      ((assembleLoop t buf rp tp (segs.map (fun s => (s.1, 2, s.2)))).1.length
          = buf.length)
      ∧ ((assembleLoop t buf rp tp (segs.map (fun s => (s.1, 2, s.2)))).2.1
          = rp + (loopRender t tp segs).length)
      ∧ ((assembleLoop t buf rp tp (segs.map (fun s => (s.1, 2, s.2)))).2.2
          = finalTp tp segs)
      ∧ ((assembleLoop t buf rp tp (segs.map (fun s => (s.1, 2, s.2)))).1.take
            ((assembleLoop t buf rp tp (segs.map (fun s => (s.1, 2, s.2)))).2.1)
          = buf.take rp ++ loopRender t tp segs) := by
  induction segs with
  | nil =>
    intro buf rp tp hs hbound
    simp [assembleLoop, loopRender, finalTp]
  | cons pa rest ih =>
    intro buf rp tp hs hbound
    obtain ⟨p, a⟩ := pa
    have h1 : tp ≤ p := hs.1
    have h2 : p + 2 ≤ t.length := hs.2.1
    have h3 : Segs t (p + 2) (rest.map Prod.fst) := hs.2.2
    have hslice : (listSlice t tp p).length = p - tp :=
      listSlice_length t tp p h1 (by omega)
    have hrlen : (renderSubst t tp ((p, a) :: rest)).length
        = (p - tp) + a.length + (renderSubst t (p + 2) rest).length := by
      simp only [renderSubst, List.length_append, hslice]
    have hb0 : rp ≤ buf.length := by omega
    have hb1 : rp + (p - tp) ≤ buf.length := by omega
    have hb2 : rp + (p - tp) + a.length ≤ buf.length := by omega
    -- first slice copy: the literal span before the placeholder
    have hlen1 : (sliceAssign buf rp (rp + (p - tp)) (listSlice t tp p)).length
        = buf.length := by
      rw [← hslice]
      exact sliceAssign_length buf (listSlice t tp p) rp (by omega)
    have htake1 : (sliceAssign buf rp (rp + (p - tp)) (listSlice t tp p)).take
          (rp + (p - tp))
        = buf.take rp ++ listSlice t tp p := by
      rw [← hslice]
      exact sliceAssign_take buf (listSlice t tp p) rp hb0
    -- second slice copy: the argument bytes
    have hlen2 : (sliceAssign (sliceAssign buf rp (rp + (p - tp)) (listSlice t tp p))
          (rp + (p - tp)) (rp + (p - tp) + a.length) a).length = buf.length := by
      rw [sliceAssign_length _ a (rp + (p - tp)) (by rw [hlen1]; omega), hlen1]
    have htake2 : (sliceAssign (sliceAssign buf rp (rp + (p - tp)) (listSlice t tp p))
          (rp + (p - tp)) (rp + (p - tp) + a.length) a).take (rp + (p - tp) + a.length)
        = (buf.take rp ++ listSlice t tp p) ++ a := by
      rw [sliceAssign_take _ a (rp + (p - tp)) (by rw [hlen1]; omega), htake1]
    have hrec := ih (sliceAssign (sliceAssign buf rp (rp + (p - tp)) (listSlice t tp p))
        (rp + (p - tp)) (rp + (p - tp) + a.length) a)
      (rp + (p - tp) + a.length) (p + 2) h3 (by rw [hlen2]; omega)
    simp only [List.map_cons, assembleLoop]
    refine ⟨by rw [hrec.1, hlen2], ?_, ?_, ?_⟩
    · rw [hrec.2.1]
      simp only [loopRender, List.length_append, hslice]
      omega
    · rw [hrec.2.2.1]
      simp only [finalTp]
    · rw [hrec.2.2.2, htake2]
      simp only [loopRender]
      simp [List.append_assoc]

theorem zip3_eq (ps : List Nat) (as_ : List (List Nat)) (hlen : ps.length = as_.length) :
    ps.zip ((ps.map (fun _ => 2)).zip as_)
      = (ps.zip as_).map (fun s => (s.1, 2, s.2)) := by
  induction ps generalizing as_ with
  | nil => simp
  | cons p ps ih =>
    cases as_ with
    | nil => simp at hlen
    | cons a as_ =>
      simp only [List.map_cons, List.zip_cons_cons]
      rw [ih as_ (by simpa using hlen)]

theorem foldl_arg_total (args : List (List Nat)) :
    ∀ init : Int, args.foldl (fun acc a => acc + (a.length : Int) - 2) init
      = init + ((args.map (fun a => a.length)).sum : Int) - 2 * args.length := by
  induction args with
  | nil =>
    intro init
    simp
  | cons a args ih =>
    intro init
    simp only [List.foldl_cons, List.map_cons, List.sum_cons, List.length_cons]
    rw [ih]
    push_cast
    ring

theorem listSlice_tail (t : List Nat) (fin : Nat) :
    listSlice t fin t.length = t.drop fin := by
  unfold listSlice
  rw [← List.length_drop]
  exact List.take_length _

/-- C9: for a StaticFormatter built over a byte template, `format_static`
with a mismatched argument count fails with the argument-count error and
returns the scratch buffer untouched (no partial output); with exactly the
template's placeholder count of byte arguments, and a computed total
length that fits the scratch buffer, it returns the template with the i-th
placeholder replaced verbatim by the i-th argument and every literal span
preserved (`renderSubst`); and each parsed placeholder position really
marks a literal `\x7b\x7d` pair of the template. -/
theorem C9_static_formatter_roundtrip (t : List Nat) (args : List (List Nat))
    (buf0 : List Nat) :
    (args.length ≠ (parseTemplate t).length →
      (StaticFormatter.construct t).format_static args buf0
        = (Except.error FmtError.argCount, buf0))
    ∧ (args.length = (parseTemplate t).length →
        ¬ ((buf0.length : Int) < (t.length : Int) +
            args.foldl (fun acc a => acc + (a.length : Int) - 2) 0) →
        ((StaticFormatter.construct t).format_static args buf0).1
          = Except.ok (renderSubst t 0 ((parseTemplate t).zip args)))
    ∧ (∀ p ∈ parseTemplate t, listSlice t p (p + 2) = [123, 125]) := by
  refine ⟨fun hcount => ?_, fun hcount hbuf => ?_, parseTemplate_braces t⟩
  · unfold StaticFormatter.format_static
    simp only [StaticFormatter.construct]
    rw [if_pos hcount]
  · have hfstle : (parseTemplate t).length ≤ args.length := le_of_eq hcount.symm
    have hfst : ((parseTemplate t).zip args).map Prod.fst = parseTemplate t :=
      List.map_fst_zip _ _ hfstle
    have hsegsOK : Segs t 0 (((parseTemplate t).zip args).map Prod.fst) := by
      rw [hfst]
      exact parseTemplate_segs t
    have hsndle : args.length ≤ (parseTemplate t).length := le_of_eq hcount
    have hsnd : ((parseTemplate t).zip args).map Prod.snd = args :=
      List.map_snd_zip _ _ hsndle
    have hsum_snd : (((parseTemplate t).zip args).map (fun s => s.2.length)).sum
        = (args.map (fun a => a.length)).sum := by
      rw [show ((parseTemplate t).zip args).map (fun s => s.2.length)
          = (((parseTemplate t).zip args).map Prod.snd).map (fun a => a.length) by
            rw [List.map_map]; rfl, hsnd]
    have hk : ((parseTemplate t).zip args).length = args.length := by
      rw [List.length_zip]
      omega
    have hbound : 0 + (renderSubst t 0 ((parseTemplate t).zip args)).length
        ≤ buf0.length := by
      have h1 := renderSubst_length t ((parseTemplate t).zip args) 0 hsegsOK
      rw [hsum_snd, hk] at h1
      have h1i := congrArg (fun n : Nat => (n : Int)) h1
      push_cast at h1i
      rw [List.map_map] at h1i
      simp only [Function.comp_def] at h1i
      rw [foldl_arg_total args 0] at hbuf
      omega
    have hspec := assembleLoop_spec t ((parseTemplate t).zip args) buf0 0 0
      hsegsOK hbound
    have hfin : finalTp 0 ((parseTemplate t).zip args) ≤ t.length :=
      finalTp_le t ((parseTemplate t).zip args) 0 hsegsOK
    have hrdec := renderSubst_eq_loopRender t ((parseTemplate t).zip args) 0
    have hlr_len : (loopRender t 0 ((parseTemplate t).zip args)).length
          + (t.length - finalTp 0 ((parseTemplate t).zip args))
        = (renderSubst t 0 ((parseTemplate t).zip args)).length := by
      rw [hrdec, List.length_append, List.length_drop]
    unfold StaticFormatter.format_static
    simp only [StaticFormatter.construct]
    rw [if_neg (not_ne_iff.mpr hcount)]
    rw [if_neg hbuf]
    rw [zip3_eq (parseTemplate t) args hcount.symm]
    rw [hspec.2.2.1, hspec.2.1]
    by_cases hrem : 0 < t.length - finalTp 0 ((parseTemplate t).zip args)
    · rw [if_pos hrem]
      have htail_len : (listSlice t (finalTp 0 ((parseTemplate t).zip args))
            t.length).length
          = t.length - finalTp 0 ((parseTemplate t).zip args) :=
        listSlice_length t _ t.length hfin (Nat.le_refl _)
      have hrp_le : 0 + (loopRender t 0 ((parseTemplate t).zip args)).length
          ≤ (assembleLoop t buf0 0 0
              ((((parseTemplate t).zip args)).map (fun s => (s.1, 2, s.2)))).1.length := by
        rw [hspec.1]
        omega
      have htake := sliceAssign_take
        (assembleLoop t buf0 0 0
          ((((parseTemplate t).zip args)).map (fun s => (s.1, 2, s.2)))).1
        (listSlice t (finalTp 0 ((parseTemplate t).zip args)) t.length)
        (0 + (loopRender t 0 ((parseTemplate t).zip args)).length)
        (by rw [hspec.1]; omega)
      rw [htail_len] at htake
      simp only []
      rw [htake]
      have htake0 := hspec.2.2.2
      rw [hspec.2.1] at htake0
      rw [htake0, listSlice_tail]
      simp [hrdec]
    · rw [if_neg hrem]
      have hfin_eq : finalTp 0 ((parseTemplate t).zip args) = t.length := by omega
      have htake0 := hspec.2.2.2
      rw [hspec.2.1] at htake0
      simp only []
      rw [htake0]
      rw [hrdec, hfin_eq, List.drop_length, List.append_nil]
      simp

def c9Template : List Nat := [85, 123, 125, 33]

/-- C9 witness: the theorem at the concrete template `"U\x7b\x7d!"` with
the single argument `"ab"` (substitution succeeds and yields `"Uab!"`) and
with no arguments (the argument-count error, scratch buffer untouched). -/
theorem C9_static_formatter_roundtrip_witness :
    ((StaticFormatter.construct c9Template).format_static [[97, 98]]
        (List.replicate 16 0)).1 = Except.ok [85, 97, 98, 33]
    ∧ ((StaticFormatter.construct c9Template).format_static []
        (List.replicate 16 0))
      = (Except.error FmtError.argCount, List.replicate 16 0) := by
  constructor
  · have h := (C9_static_formatter_roundtrip c9Template [[97, 98]]
        (List.replicate 16 0)).2.1 (by decide) (by decide)
    rw [h]
    rfl
  · exact (C9_static_formatter_roundtrip c9Template [] (List.replicate 16 0)).1
      (by decide)

/-- C7 witness: the amended theorem at rate −3 (construction), at a filter
with rate 0 (raises), and at a filter with rate 5 (returns normally). -/
theorem C7_amended_no_validation_witness :
    (SamplingFilter.construct (-3) = { rate := -3, counter := 0 })
    ∧ ((SamplingFilter.construct 0).filterStep).2 = Except.error ()
    ∧ ((SamplingFilter.construct 5).filterStep).2
        = Except.ok (decide (Int.fmod (1 : Int) 5 = 0)) :=
  ⟨(C7_amended_no_validation (-3) (SamplingFilter.construct 0)).1,
   (C7_amended_no_validation (-3) (SamplingFilter.construct 0)).2.1 rfl,
   (C7_amended_no_validation (-3) (SamplingFilter.construct 5)).2.2.1 (by decide)⟩

end Logbolt
